import Mathlib

set_option maxHeartbeats 1000000
set_option allowUnsafeReducibility true
attribute [semireducible] Rat.add Rat.sub Rat.mul Rat.div Rat.neg Rat.inv

/-!
Verification of the RobotLearning repository's learning-rule core.

Shallow embedding of:
  * `src/src/tools.py`                      (softmax, decay, constant, equal_twists, action_state_rep)
  * `src/ROSBase/src/horde/scripts/gvf.py`  (GVF: _tdLearn, _gtdLearn, _toGTDlearn, rupee, ude)
  * `src/src/greedy_gq.py`                  (GreedyGQ: predict, update, uniform and prioritized replay)

Modelling conventions:
  * numpy float arrays are modelled as `List ℚ` with exact rational arithmetic
    (`ℝ` is used only where the code takes square roots / exponentials);
  * numpy operations that raise on shape mismatch are modelled by `Except String`
    results guarded by explicit length checks (numpy's scalar broadcasting of
    length-1 arrays is not modelled; no claim exercises it);
  * Python generators (`tools.decay`, `tools.constant`) are modelled as a
    sequence `ℕ → ℚ` together with a cursor counting how many `next()` calls
    have been made;
  * `random.sample(range(0, m), k)` is modelled by an oracle list of indices
    supplied as an argument; the model keeps the two properties the code
    relies on: it fails exactly when `m < k`, and every returned index is `< m`
    (distinctness and the exact sample size are not needed by any claim);
  * `rospy` logging and the periodic `pickle` diagnostic dump are I/O with no
    effect on learner state and are not modelled;
  * on a Python exception the interpreter may leave earlier in-place mutations
    behind; the `Except` model discards such partially-mutated states (no claim
    observes a state after an exception).
-/

/-! ### Vectors: `List ℚ` with numpy-style pointwise operations -/

/-- Pointwise sum, `a + b` on equal-length numpy arrays. -/
def vadd (a b : List ℚ) : List ℚ := List.zipWith (· + ·) a b

/-- Pointwise difference, `a - b` on equal-length numpy arrays. -/
def vsub (a b : List ℚ) : List ℚ := List.zipWith (· - ·) a b

/-- Scalar times vector, `c * v` in numpy. -/
def smul (c : ℚ) (v : List ℚ) : List ℚ := v.map (fun x => c * x)

/-- `np.inner` / `np.dot` of two equal-length 1-D arrays. -/
def dot (a b : List ℚ) : ℚ := (List.zipWith (· * ·) a b).sum

/-- `np.zeros n` as a list. -/
def zeros (n : ℕ) : List ℚ := List.replicate n 0

/-! ### Actions (`geometry_msgs/Twist`) and `tools.py` -/

/-- A 3-D vector component of a ROS Twist message. -/
structure Vec3 where
  x : ℚ
  y : ℚ
  z : ℚ
deriving DecidableEq, Repr

/-- A ROS Twist action: linear and angular velocity commands. -/
structure Twist where
  linear : Vec3
  angular : Vec3
deriving DecidableEq, Repr

/-- `np.isclose(a, b)` with the default tolerances
`rtol = 1e-05`, `atol = 1e-08`: `|a - b| <= atol + rtol * |b|`. -/
def isclose (a b : ℚ) : Bool :=
  decide (|a - b| ≤ 1/100000000 + (1/100000) * |b|)

/-- `tools.equal_twists`: tolerance-based equality of two Twist actions. -/
def equal_twists (t1 t2 : Twist) : Bool :=
  isclose t1.linear.x t2.linear.x &&
  isclose t1.linear.y t2.linear.y &&
  isclose t1.linear.z t2.linear.z &&
  isclose t1.angular.x t2.angular.x &&
  isclose t1.angular.y t2.angular.y &&
  isclose t1.angular.z t2.angular.z

/-- `tools.action_state_rep(action_space)(state, action)`: the state-action
feature vector, `state.size * len(action_space)` long, with `state` written
into the block of every action that `equal_twists`-matches `action` and zeros
elsewhere. -/
def action_state_rep (action_space : List Twist) (state : List ℚ) (action : Twist) : List ℚ :=
  (action_space.map
    (fun current_action =>
      if equal_twists action current_action then state else zeros state.length)).flatten

/-- `tools.decay(base)`: generator yielding `base / t` for `t = 1, 2, 3, ...`;
modelled as the value produced by the `k`-th `next()` call (0-indexed). -/
def decay (base : ℚ) : ℕ → ℚ := fun k => base / (k + 1 : ℚ)

/-- `tools.constant(base)`: generator yielding `base` forever. -/
def constant (base : ℚ) : ℕ → ℚ := fun _ => base

/-- `tools.softmax(q)`: subtract `np.max(q)`, exponentiate, normalize.
`np.max` of an empty array raises `ValueError`. -/
noncomputable def softmax (q : List ℝ) : Except String (List ℝ) :=
  match q with
  | [] => .error "ValueError: zero-size array reduction"
  | x :: xs =>
    let max_q : ℝ := xs.foldl max x
    let exp_q : List ℝ := (x :: xs).map (fun y => Real.exp (y - max_q))
    .ok (exp_q.map (fun z => z / exp_q.sum))

/-! ### GVF (`gvf.py`)

The GVF question functions `cumulant`, `gamma`, `lam` and `policy` are methods
meant to be overridden per instance; they are modelled as function-valued
fields, initialised by `GVF.init` to the base-class defaults.  The `learn`
method pointer chosen by the constructor's `learner` name is call-site
dispatch to one of `tdLearn` / `gtdLearn` / `toGTDlearn` and is not itself a
field of the model. -/

structure GVF where
  name : String
  isOffPolicy : Bool
  lastState : Option (List ℚ)
  lastObservation : ℚ
  weights : List ℚ
  hWeights : List ℚ
  hHatWeights : List ℚ
  eligibilityTrace : List ℚ
  elig_delta : List ℚ
  elig_w : List ℚ
  gammaLast : ℚ
  rhoLast : ℚ
  lambdaLast : ℚ
  weightsLast : List ℚ
  weightsL : List ℚ
  alpha : ℚ
  alphaH : ℚ
  alphaRUPEE : ℚ
  betaNotUDE : ℚ
  betaNotRUPEE : ℚ
  taoRUPEE : ℚ
  taoUDE : ℚ
  movingtdEligErrorAverage : List ℚ
  lastAction : ℚ
  tdVariance : ℚ
  averageTD : ℚ
  i : ℚ
  cumulant : List ℚ → ℚ
  gamma : List ℚ → ℚ
  lam : List ℚ → ℚ
  policy : List ℚ → Option Twist

/-- `GVF.__init__(n_features, alpha, isOffPolicy, learner, name)`.
`movingtdEligErrorAverage` is initialised to the scalar `0` in Python and
becomes an `n_features` vector after the first update; it is modelled as the
zero vector throughout. -/
def GVF.init (n_features : ℕ) (alphaArg : ℚ) (isOffPolicy : Bool) (name : String) : GVF :=
  { name := name
    isOffPolicy := isOffPolicy
    lastState := none
    lastObservation := 0
    weights := zeros n_features
    hWeights := zeros n_features
    hHatWeights := zeros n_features
    eligibilityTrace := zeros n_features
    elig_delta := zeros n_features
    elig_w := zeros n_features
    gammaLast := 1
    rhoLast := 1
    lambdaLast := 0
    weightsLast := zeros n_features
    weightsL := zeros n_features
    alpha := (1 - 9/10) * alphaArg
    alphaH := (1/100) * ((1 - 9/10) * alphaArg)
    alphaRUPEE := 5 * ((1 - 9/10) * alphaArg)
    betaNotUDE := ((1 - 9/10) * alphaArg) * 10
    betaNotRUPEE := (1 - 9/10) * alphaArg * 6 / 30
    taoRUPEE := 0
    taoUDE := 0
    movingtdEligErrorAverage := zeros n_features
    lastAction := 0
    tdVariance := 0
    averageTD := 0
    i := 1
    cumulant := fun _ => 1
    gamma := fun _ => 0
    lam := fun _ => 9/10
    policy := fun _ => none }

/-- `GVF.rho(action, state)`: `equal_twists(action, self.policy(state))` when
off-policy (the base-class `policy` returns `None`, on which Python would
raise `AttributeError` inside `equal_twists`), else `1`. -/
def GVF.rho (g : GVF) (action : Twist) (state : List ℚ) : Except String ℚ :=
  if g.isOffPolicy then
    match g.policy state with
    | none => .error "AttributeError: NoneType has no attribute linear"
    | some t => .ok (if equal_twists action t then 1 else 0)
  else
    .ok 1

/-- `GVF.prediction(phi)`. -/
def GVF.prediction (g : GVF) (phi : List ℚ) : ℚ := dot g.weights phi

/-- `GVF.rupee()`: `np.sqrt(np.absolute(np.inner(hHatWeights, movingtdEligErrorAverage)))`. -/
noncomputable def GVF.rupee (g : GVF) : ℝ :=
  Real.sqrt |((dot g.hHatWeights g.movingtdEligErrorAverage : ℚ) : ℝ)|

/-- Denominator of `GVF.ude()`: `np.sqrt(tdVariance) + 0.000001`. -/
noncomputable def GVF.udeDenom (g : GVF) : ℝ :=
  Real.sqrt (g.tdVariance : ℝ) + 1/1000000

/-- `GVF.ude()`: `np.absolute(averageTD / (np.sqrt(tdVariance) + 0.000001))`. -/
noncomputable def GVF.ude (g : GVF) : ℝ :=
  |(g.averageTD : ℝ) / g.udeDenom|

/-- Successful body of `GVF._tdLearn` (everything the method mutates), in
source order: eligibility trace, TD error, RUPEE tracker, UDE tracker,
weights, `gammaLast`. -/
def GVF.tdLearnCore (g : GVF) (lastState newState : List ℚ) : GVF :=
  let zNext := g.cumulant newState
  let gammaNext := g.gamma newState
  let lam := g.lam newState
  let elig := vadd (smul (g.gammaLast * lam) g.eligibilityTrace) lastState
  let tdError := zNext + gammaNext * dot newState g.weights - dot lastState g.weights
  let hHat := vadd g.hHatWeights
    (smul g.alphaRUPEE (vsub (smul tdError elig) (smul (dot g.hHatWeights lastState) lastState)))
  let taoR := (1 - g.betaNotRUPEE) * g.taoRUPEE + g.betaNotRUPEE
  let betaR := g.betaNotRUPEE / taoR
  let moving := vadd (smul (1 - betaR) g.movingtdEligErrorAverage) (smul (betaR * tdError) elig)
  let taoU := (1 - g.betaNotUDE) * g.taoUDE + g.betaNotUDE
  let betaU := g.betaNotUDE / taoU
  let oldAverageTD := g.averageTD
  let avg := (1 - betaU) * oldAverageTD + betaU * tdError
  let tdVar := ((g.i - 1) * g.tdVariance + (tdError - oldAverageTD) * (tdError - avg)) / g.i
  { g with
      eligibilityTrace := elig
      hHatWeights := hHat
      taoRUPEE := taoR
      movingtdEligErrorAverage := moving
      taoUDE := taoU
      averageTD := avg
      tdVariance := tdVar
      i := g.i + 1
      weights := vadd g.weights (smul (g.alpha * tdError) elig)
      gammaLast := gammaNext }

/-- `GVF._tdLearn(lastState, action, newState)`.  There is no empty-vector
guard in the source; numpy raises a broadcast error when the inputs do not
match the feature dimension (`weights.length`). -/
def GVF.tdLearn (g : GVF) (lastState : List ℚ) (_action : Twist) (newState : List ℚ) :
    Except String GVF :=
  if lastState.length = g.weights.length ∧ newState.length = g.weights.length then
    .ok (g.tdLearnCore lastState newState)
  else
    .error "ValueError: operands could not be broadcast together"

/-- Successful body of `GVF._gtdLearn` given the already-computed importance
ratio `rho`, in source order. -/
def GVF.gtdLearnCore (g : GVF) (rho : ℚ) (lastState newState : List ℚ) : GVF :=
  let zNext := g.cumulant newState
  let gammaNext := g.gamma newState
  let lam := g.lam newState
  let elig := smul rho (vadd (smul (g.gammaLast * lam) g.eligibilityTrace) lastState)
  let tdError := zNext + gammaNext * dot newState g.weights - dot lastState g.weights
  let h := vadd g.hWeights
    (smul g.alphaH (vsub (smul tdError elig) (smul (dot g.hWeights lastState) lastState)))
  let hHat := vadd g.hHatWeights
    (smul g.alphaRUPEE (vsub (smul tdError elig) (smul (dot g.hHatWeights lastState) lastState)))
  let taoR := (1 - g.betaNotRUPEE) * g.taoRUPEE + g.betaNotRUPEE
  let betaR := g.betaNotRUPEE / taoR
  let moving := vadd (smul (1 - betaR) g.movingtdEligErrorAverage) (smul (betaR * tdError) elig)
  let taoU := (1 - g.betaNotUDE) * g.taoUDE + g.betaNotUDE
  let betaU := g.betaNotUDE / taoU
  let oldAverageTD := g.averageTD
  let avg := (1 - betaU) * oldAverageTD + betaU * tdError
  let tdVar := ((g.i - 1) * g.tdVariance + (tdError - oldAverageTD) * (tdError - avg)) / g.i
  { g with
      eligibilityTrace := elig
      hWeights := h
      hHatWeights := hHat
      taoRUPEE := taoR
      movingtdEligErrorAverage := moving
      taoUDE := taoU
      averageTD := avg
      tdVariance := tdVar
      i := g.i + 1
      weights := vadd g.weights
        (smul g.alpha (vsub (smul tdError elig) (smul (gammaNext * (1 - lam) * dot elig h) newState)))
      gammaLast := gammaNext }

/-- `GVF._gtdLearn(lastState, action, newState)`: returns `None` untouched on
an empty feature vector on either side, otherwise computes `rho` and applies
the GTD update. -/
def GVF.gtdLearn (g : GVF) (lastState : List ℚ) (action : Twist) (newState : List ℚ) :
    Except String GVF :=
  if lastState.length = 0 ∨ newState.length = 0 then
    .ok g
  else
    match g.rho action lastState with
    | .error e => .error e
    | .ok rho =>
      if lastState.length = g.weights.length ∧ newState.length = g.weights.length then
        .ok (g.gtdLearnCore rho lastState newState)
      else
        .error "ValueError: operands could not be broadcast together"

/-- Successful body of `GVF._toGTDlearn` given the already-computed importance
ratio `rho`, in source order (the `weightsLast`/`weightsL` shuffle happens
first; every use of `weights` below refers to the pre-update weights). -/
def GVF.toGTDlearnCore (g : GVF) (rho : ℚ) (lastState newState : List ℚ) : GVF :=
  let weightsLast := g.weightsL
  let weightsL := g.weights
  let zNext := g.cumulant newState
  let gammaNext := g.gamma newState
  let lambdaNext := g.lam newState
  let td_err := zNext + gammaNext * dot newState g.weights - dot lastState g.weights
  let elig := smul rho
    (vadd (smul (g.gammaLast * g.lambdaLast) g.eligibilityTrace)
      (smul (g.alpha * (1 - rho * g.gammaLast * g.lambdaLast * dot lastState g.eligibilityTrace))
        lastState))
  let elig_delta := smul rho (vadd (smul (g.gammaLast * g.lambdaLast) g.elig_delta) lastState)
  let elig_w := vadd (smul (g.rhoLast * g.gammaLast * g.lambdaLast) g.elig_w)
    (smul (g.alphaH * (1 - g.rhoLast * g.gammaLast * g.lambdaLast * dot lastState g.elig_w))
      lastState)
  let weights := vadd g.weights
    (vsub
      (vadd (smul td_err elig)
        (smul (dot (vsub g.weights weightsLast) newState) (vsub elig (smul (g.alpha * rho) newState))))
      (smul (g.alpha * gammaNext * (1 - lambdaNext) * dot g.hWeights elig_delta) newState))
  let hWeights := vadd g.hWeights
    (vsub (smul (rho * td_err) elig_w) (smul (g.alphaH * dot lastState g.hWeights) lastState))
  { g with
      weightsLast := weightsLast
      weightsL := weightsL
      eligibilityTrace := elig
      elig_delta := elig_delta
      elig_w := elig_w
      weights := weights
      hWeights := hWeights
      rhoLast := rho
      lambdaLast := lambdaNext
      gammaLast := gammaNext }

/-- `GVF._toGTDlearn(lastState, action, newState)`: returns `None` untouched
on an empty feature vector on either side, otherwise applies the true-online
GTD update. -/
def GVF.toGTDlearn (g : GVF) (lastState : List ℚ) (action : Twist) (newState : List ℚ) :
    Except String GVF :=
  if lastState.length = 0 ∨ newState.length = 0 then
    .ok g
  else
    match g.rho action lastState with
    | .error e => .error e
    | .ok rho =>
      if lastState.length = g.weights.length ∧ newState.length = g.weights.length then
        .ok (g.toGTDlearnCore rho lastState newState)
      else
        .error "ValueError: operands could not be broadcast together"

/-! ### GreedyGQ (`greedy_gq.py`) -/

/-- A replay-buffer entry: the `new_experience` dict of `GreedyGQ.update`,
with the `td_error` key that is filled in just before the append. -/
structure Experience where
  phi : List ℚ
  last_action : Twist
  phi_prime : List ℚ
  cumulant : ℚ
  gamma : ℚ
  rho : ℚ
  id : ℕ
  td_error : ℚ
deriving DecidableEq, Repr

structure GreedyGQ where
  lmbda : ℚ
  alphaSeq : ℕ → ℚ
  betaSeq : ℕ → ℚ
  alphaT : ℕ
  betaT : ℕ
  num_features : ℕ
  action_space : List Twist
  finished_episode : ℚ → Bool
  theta : List ℚ
  sec_weights : List ℚ
  e : List ℚ
  last_gamma : ℚ
  action_phi : List ℚ
  timeStep : ℕ
  average_td_error : ℚ
  average_td_errors : List ℚ
  delta : ℚ
  num_episodes : ℕ
  tderr_elig : List ℚ
  worst_experiences : List Experience
  num_experiences : ℕ
  episode_finished_last_step : Bool

/-- `GreedyGQ.__init__`. -/
def GreedyGQ.init (action_space : List Twist) (finished_episode : ℚ → Bool)
    (num_features : ℕ) (alpha beta lmbda : ℚ) (decayFlag : Bool) : GreedyGQ :=
  { lmbda := lmbda
    alphaSeq := if decayFlag then decay alpha else constant alpha
    betaSeq := if decayFlag then decay beta else constant beta
    alphaT := 0
    betaT := 0
    num_features := num_features
    action_space := action_space
    finished_episode := finished_episode
    theta := zeros num_features
    sec_weights := zeros num_features
    e := zeros num_features
    last_gamma := 0
    action_phi := zeros num_features
    timeStep := 0
    average_td_error := 0
    average_td_errors := [0]
    delta := 0
    num_episodes := 0
    tderr_elig := zeros num_features
    worst_experiences := []
    num_experiences := 0
    episode_finished_last_step := false }

/-- `GreedyGQ.predict(phi, action)`: the state-action value for a given
action, or the `np.mean` over the whole action space for `action = None`. -/
def GreedyGQ.predict (g : GreedyGQ) (phi : List ℚ) (action : Option Twist) : ℚ :=
  match action with
  | some a => dot (action_state_rep g.action_space phi a) g.theta
  | none =>
    (g.action_space.map (fun a => dot (action_state_rep g.action_space phi a) g.theta)).sum /
      (g.action_space.length : ℚ)

/-- The `A_{t+1} update` loop of `GreedyGQ.update` (lines 166-171): starting
from `last_action`, replace the candidate by each enumerated action whose
value is `>=` the candidate's value. -/
def greedy_action (v : Twist → ℚ) (start : Twist) (action_space : List Twist) : Twist :=
  action_space.foldl (fun cand a => if v a ≥ v cand then a else cand) start

/-- The state-action value `theta . stateaction(phi_prime, a)` that the
`A_{t+1}` loop of `GreedyGQ.update` maximizes (the values tabulated in the
`action_phi_primes` dict). -/
def GreedyGQ.qval (g : GreedyGQ) (phi_prime : List ℚ) (a : Twist) : ℚ :=
  dot g.theta (action_state_rep g.action_space phi_prime a)

/-- `GreedyGQ.update(phi, last_action, phi_prime, cumulant, gamma, rho,
replaying_experience)`; returns the updated learner and `self.action_phi`.
The `action_phi_primes` / `action_phis` dicts are modelled as the function
`action_state_rep` they tabulate; the `np.count_nonzero` warnings and the
periodic pickle dump are logging/IO-only and not modelled. -/
def GreedyGQ.update (g : GreedyGQ) (phi : List ℚ) (last_action : Twist) (phi_prime : List ℚ)
    (cumulant gamma rho : ℚ) (replaying_experience : Bool) :
    Except String (GreedyGQ × List ℚ) :=
  if replaying_experience = false ∧ g.episode_finished_last_step = true then
    .ok ({ g with episode_finished_last_step := false }, g.action_phi)
  else
    let expId := g.num_experiences
    let g0 := if replaying_experience then g else { g with num_experiences := g.num_experiences + 1 }
    let action_phi := action_state_rep g.action_space phi last_action
    let action_phi_primes := fun a => action_state_rep g.action_space phi_prime a
    let next_greedy_action :=
      greedy_action (fun a => dot g.theta (action_phi_primes a)) last_action g.action_space
    let action_phi_bar := action_phi_primes next_greedy_action
    let delta := cumulant + gamma * dot g.theta action_phi_bar - dot g.theta action_phi
    if action_phi.length = g.num_features ∧ action_phi_bar.length = g.num_features ∧
        g.theta.length = g.num_features ∧ g.e.length = g.num_features ∧
        g.sec_weights.length = g.num_features then
      let e1 := vadd (smul (g.last_gamma * g.lmbda * rho) g.e) action_phi
      let theta1 := vadd g.theta
        (smul (g.alphaSeq g.alphaT)
          (vsub (smul delta e1)
            (smul (g.last_gamma * (1 - g.lmbda) * dot g.sec_weights action_phi) action_phi_bar)))
      let sec1 := vadd g.sec_weights
        (smul (g.betaSeq g.betaT)
          (vsub (smul delta e1) (smul (dot g.sec_weights action_phi) action_phi)))
      let g1 := { g0 with
                    action_phi := action_phi
                    e := e1
                    theta := theta1
                    sec_weights := sec1
                    alphaT := g.alphaT + 1
                    betaT := g.betaT + 1
                    tderr_elig := smul delta e1
                    delta := delta
                    last_gamma := gamma }
      if replaying_experience then
        .ok (g1, action_phi)
      else
        let newExp : Experience :=
          { phi := phi, last_action := last_action, phi_prime := phi_prime,
            cumulant := cumulant, gamma := gamma, rho := rho, id := expId,
            td_error := |delta| }
        let g2 := { g1 with
                      worst_experiences := g1.worst_experiences ++ [newExp]
                      timeStep := g1.timeStep + 1 }
        let avg :=
          if 1000 ≤ g2.average_td_errors.length then
            g2.average_td_error +
              (|delta| - |g2.average_td_errors.getD (g2.average_td_errors.length - 1000) 0|) / 1000
          else
            g2.average_td_error + (|delta| - |g2.average_td_error|) / (g2.timeStep : ℚ)
        let g3 := { g2 with
                      average_td_error := avg
                      average_td_errors := g2.average_td_errors ++ [avg] }
        let g4 :=
          if g.finished_episode cumulant then
            { g3 with
                episode_finished_last_step := true
                num_episodes := g3.num_episodes + 1
                e := zeros g3.num_features }
          else g3
        .ok (g4, action_phi)
    else
      .error "ValueError: operands could not be broadcast together"

/-- `random.sample(range(0, m), k)` given an oracle for the randomness: it
raises `ValueError` exactly when the sample size exceeds the population size,
and every index it returns lies in `range(0, m)` (distinctness and the exact
sample size are not used by any claim). -/
def sampleRange (m k : ℕ) (oracle : List ℕ) : Except String (List ℕ) :=
  if m < k then
    .error "ValueError: sample larger than population"
  else
    .ok ((oracle.filter (fun idx => idx < m)).take k)

/-- One iteration of a replay loop: fetch `worst_experiences[idx]`, call
`update` with `replaying_experience=True`, then overwrite that entry's
`td_error` with `abs(self.delta)`. -/
def GreedyGQ.replayStep (g : GreedyGQ) (idx : ℕ) : Except String GreedyGQ :=
  if h : idx < g.worst_experiences.length then
    let ex := g.worst_experiences.get ⟨idx, h⟩
    match g.update ex.phi ex.last_action ex.phi_prime ex.cumulant ex.gamma ex.rho true with
    | .error e => .error e
    | .ok res =>
      .ok { res.1 with
              worst_experiences :=
                res.1.worst_experiences.set idx { ex with td_error := |res.1.delta| } }
  else
    .error "IndexError: list index out of range"

/-- `GreedyGQ.uniform_experience_replay`: truncate the buffer to the most
recent 100 entries, sample 10 indices from `range(0, len - 1)` (the bare
`except: pass` turns a sampling failure into an empty index list), and replay
them. -/
def GreedyGQ.uniform_experience_replay (g : GreedyGQ) (oracle : List ℕ) :
    Except String GreedyGQ :=
  if g.num_experiences < 1 then
    .ok g
  else
    let g1 := { g with
                  worst_experiences :=
                    g.worst_experiences.drop (g.worst_experiences.length - 100) }
    let random_indices :=
      match sampleRange (g1.worst_experiences.length - 1) 10 oracle with
      | .ok l => l
      | .error _ => []
    random_indices.foldlM GreedyGQ.replayStep g1

/-- `GreedyGQ.td_error_prioritized_experience_replay`: sort the buffer by
descending `td_error`, keep the top 100, and replay the first
`min(10, len)` entries in order. -/
def GreedyGQ.td_error_prioritized_experience_replay (g : GreedyGQ) : Except String GreedyGQ :=
  let g1 := { g with
                worst_experiences :=
                  (g.worst_experiences.mergeSort
                    (fun a b => decide (b.td_error ≤ a.td_error))).take 100 }
  if g.num_experiences < 1 then
    .ok g1
  else
    (List.range (min 10 g1.worst_experiences.length)).foldlM GreedyGQ.replayStep g1

/-! ### Concrete instances used by witnesses and counterexamples -/

/-- The stop action: all velocity commands zero. -/
def twistA : Twist := ⟨⟨0, 0, 0⟩, ⟨0, 0, 0⟩⟩

/-- A forward action, distinguishable from `twistA` well beyond the
`isclose` tolerances. -/
def twistB : Twist := ⟨⟨1, 0, 0⟩, ⟨0, 0, 0⟩⟩

/-- A one-feature GVF with `alpha = 1`. -/
def gvf1 : GVF := GVF.init 1 1 false "gvf1"

/-- A one-feature GVF with `alpha = 1/2` (so `betaNotUDE = 1/2`). -/
def gvf9 : GVF := GVF.init 1 (1/2) false "gvf9"

/-- The state after one `_tdLearn` step of `gvf1` on the transition
`[1] -> [1]`. -/
def gvf1td : GVF :=
  match GVF.tdLearn gvf1 [1] twistA [1] with
  | .ok g => g
  | .error _ => gvf1

/-- The state after one `_tdLearn` step of `gvf9` on `[1] -> [1]`. -/
def gvf9td : GVF :=
  match GVF.tdLearn gvf9 [1] twistA [1] with
  | .ok g => g
  | .error _ => gvf9

/-- The state after one `_gtdLearn` step of `gvf9` on `[1] -> [1]`. -/
def gvf9gtd : GVF :=
  match GVF.gtdLearn gvf9 [1] twistA [1] with
  | .ok g => g
  | .error _ => gvf9

/-- A two-action GreedyGQ learner over one raw feature (`num_features = 2`),
with zero learning rates and an episode that never finishes. -/
def gq2 : GreedyGQ := GreedyGQ.init [twistA, twistB] (fun _ => false) 2 0 0 0 false

/-- Iterated non-replayed updates of `gq2` on the fixed transition
`phi = [1]`, `last_action = twistA`, `phi_prime = [1]`, `cumulant = 0`,
`gamma = 0`, `rho = 1`. -/
def gq2iter : ℕ → Except String GreedyGQ
  | 0 => .ok gq2
  | k + 1 => do
    let g ← gq2iter k
    let res ← g.update [1] twistA [1] 0 0 1 false
    .ok res.1

/-- A two-action GreedyGQ learner whose episode finishes exactly when the
cumulant is 1. -/
def gq5 : GreedyGQ := GreedyGQ.init [twistA, twistB] (fun c => decide (c = 1)) 2 0 0 0 false

/-- A freshly-constructed one-action GreedyGQ learner (empty replay buffer,
no experiences yet). -/
def gqP : GreedyGQ := GreedyGQ.init [twistA] (fun _ => false) 1 0 0 0 false

/-- A single recorded experience for the replay-buffer instances. -/
def exp0 : Experience :=
  { phi := [1], last_action := twistA, phi_prime := [1],
    cumulant := 0, gamma := 0, rho := 1, id := 0, td_error := 0 }

/-- A one-action GreedyGQ learner holding exactly one recorded experience. -/
def gq10 : GreedyGQ :=
  { GreedyGQ.init [twistA] (fun _ => false) 1 0 0 0 false with
      worst_experiences := [exp0]
      num_experiences := 1 }

/-- The `tdVariance >= 0` invariant of the UDE statistics, together with the
auxiliary facts (`taoUDE >= 0`, `i >= 1`) that make it inductive. -/
def UDEInv (g : GVF) : Prop := 0 ≤ g.taoUDE ∧ 0 ≤ g.tdVariance ∧ 1 ≤ g.i

/-- The result of one non-replayed update of `gq2`. -/
def gq2res : GreedyGQ × List ℚ :=
  match gq2.update [1] twistA [1] 0 0 1 false with
  | .ok r => r
  | .error _ => (gq2, [])

/-- The result of one episode-ending (cumulant 1) non-replayed update of
`gq5`. -/
def gq5res : GreedyGQ × List ℚ :=
  match gq5.update [1] twistA [1] 1 0 1 false with
  | .ok r => r
  | .error _ => (gq5, [])

/-! ### Theorems -/

/-- C1: every successful `_tdLearn` call applies exactly the core TD rule:
the trace becomes `gammaLast * lam(newState) * e + lastState`, the weights
become `theta + alpha * tdError * e` with
`tdError = cumulant(newState) + gamma(newState) * (theta . newState) - (theta . lastState)`,
and `gammaLast` is then set to `gamma(newState)`. -/
theorem tdLearn_core_rule (g : GVF) (lastState newState : List ℚ) (action : Twist) (g' : GVF)
    (h : g.tdLearn lastState action newState = .ok g') :
    g'.eligibilityTrace = vadd (smul (g.gammaLast * g.lam newState) g.eligibilityTrace) lastState ∧
    g'.weights = vadd g.weights
      (smul (g.alpha *
          (g.cumulant newState + g.gamma newState * dot newState g.weights -
            dot lastState g.weights))
        g'.eligibilityTrace) ∧
    g'.gammaLast = g.gamma newState := by
  unfold GVF.tdLearn at h
  split at h
  · injection h with h
    subst h
    exact ⟨rfl, rfl, rfl⟩
  · exact Except.noConfusion h

/-- C1 witness: the TD rule instantiated on a concrete one-feature learner. -/
theorem tdLearn_core_rule_witness :
    GVF.tdLearn gvf1 [1] twistA [1] = .ok gvf1td ∧
    (gvf1td.eligibilityTrace =
        vadd (smul (gvf1.gammaLast * gvf1.lam [1]) gvf1.eligibilityTrace) [1] ∧
      gvf1td.weights = vadd gvf1.weights
        (smul (gvf1.alpha *
            (gvf1.cumulant [1] + gvf1.gamma [1] * dot [1] gvf1.weights - dot [1] gvf1.weights))
          gvf1td.eligibilityTrace) ∧
      gvf1td.gammaLast = gvf1.gamma [1]) :=
  ⟨rfl, tdLearn_core_rule gvf1 [1] [1] twistA gvf1td rfl⟩

/-- C4 counterexample: `_tdLearn` has no empty-vector guard; on an empty
`lastState` it raises a numpy broadcast error instead of being a no-op that
returns `None`. -/
theorem tdLearn_empty_input_raises :
    GVF.tdLearn gvf1 [] twistA [1] =
      .error "ValueError: operands could not be broadcast together" := rfl

/-- C4 amended: the GTD and true-online GTD variants are no-ops returning
`None` on an empty feature vector on either side of the transition; the TD
variant performs no such check and raises a broadcast error on an empty
`lastState` whenever the learner has at least one feature. -/
theorem empty_input_guard_amended :
    (∀ (g : GVF) (ls : List ℚ) (a : Twist) (ns : List ℚ), ls.length = 0 ∨ ns.length = 0 →
      g.gtdLearn ls a ns = .ok g ∧ g.toGTDlearn ls a ns = .ok g) ∧
    (∀ (g : GVF) (a : Twist) (ns : List ℚ), 1 ≤ g.weights.length →
      g.tdLearn [] a ns = .error "ValueError: operands could not be broadcast together") := by
  constructor
  · intro g ls a ns h
    constructor
    · unfold GVF.gtdLearn
      rw [if_pos h]
    · unfold GVF.toGTDlearn
      rw [if_pos h]
  · intro g a ns h
    unfold GVF.tdLearn
    rw [if_neg]
    rintro ⟨h1, -⟩
    simp at h1
    omega
/-- C4 amended witness: the guards evaluated on concrete one-feature
learners. -/
theorem empty_input_guard_amended_witness :
    (gvf1.gtdLearn [] twistA [1] = .ok gvf1 ∧ gvf1.toGTDlearn [] twistA [1] = .ok gvf1) ∧
    gvf1.tdLearn [] twistA [1] =
      .error "ValueError: operands could not be broadcast together" :=
  ⟨empty_input_guard_amended.1 gvf1 [] twistA [1] (Or.inl rfl),
    empty_input_guard_amended.2 gvf1 twistA [1] (by decide)⟩

/-- C6: `GreedyGQ.predict(phi, None)` is the arithmetic mean of
`predict(phi, a)` over the action space. -/
theorem predict_none_is_mean (g : GreedyGQ) (phi : List ℚ) (h : g.action_space ≠ []) :
    g.predict phi none =
      (g.action_space.map (fun a => g.predict phi (some a))).sum /
        (g.action_space.length : ℚ) := rfl

/-- C6 witness: the mean identity on a concrete two-action learner. -/
theorem predict_none_is_mean_witness :
    gq2.action_space ≠ [] ∧
    gq2.predict [1] none =
      (gq2.action_space.map (fun a => gq2.predict [1] (some a))).sum /
        (gq2.action_space.length : ℚ) :=
  ⟨by decide, predict_none_is_mean gq2 [1] (by decide)⟩

/-- C7: for every GVF state, `rupee()` returns
`sqrt(|<hHatWeights, movingtdEligErrorAverage>|)`, which is non-negative. -/
theorem rupee_sqrt_abs_nonneg (g : GVF) :
    g.rupee = Real.sqrt |((dot g.hHatWeights g.movingtdEligErrorAverage : ℚ) : ℝ)| ∧
    0 ≤ g.rupee :=
  ⟨rfl, Real.sqrt_nonneg _⟩

/-- Shifting every exponent by `-m` multiplies the sum of exponentials by
`exp (-m)`. -/
theorem sum_map_exp_shift (q : List ℝ) (m : ℝ) :
    (q.map (fun y => Real.exp (y - m))).sum = Real.exp (-m) * (q.map Real.exp).sum := by
  induction q with
  | nil => simp
  | cons x xs ih =>
    simp only [List.map_cons, List.sum_cons, ih]
    rw [Real.exp_sub, Real.exp_neg, div_eq_mul_inv]
    ring

/-- The sum of exponentials of a non-empty list is positive. -/
theorem sum_map_exp_pos (q : List ℝ) (h : q ≠ []) : 0 < (q.map Real.exp).sum := by
  apply List.sum_pos
  · intro x hx
    obtain ⟨y, -, rfl⟩ := List.mem_map.mp hx
    exact Real.exp_pos y
  · simpa using h

/-- Dividing a shifted exponential by the shifted normalizer gives the
unshifted softmax entry. -/
theorem exp_shift_div (q : List ℝ) (hq : q ≠ []) (m y : ℝ) :
    Real.exp (y - m) / (q.map (fun z => Real.exp (z - m))).sum =
      Real.exp y / (q.map Real.exp).sum := by
  have hS : 0 < (q.map Real.exp).sum := sum_map_exp_pos q hq
  have h1 : Real.exp (-m) ≠ 0 := Real.exp_ne_zero _
  have h2 : (q.map Real.exp).sum ≠ 0 := hS.ne'
  have hy : Real.exp (y - m) = Real.exp y * Real.exp (-m) := by
    rw [← Real.exp_add]
    ring_nf
  rw [sum_map_exp_shift, hy]
  field_simp
  ring

/-- C8: on a non-empty vector, `tools.softmax` succeeds and the max-shift is
transparent: the result is exactly `exp(q_i) / sum_j exp(q_j)`, its entries
are non-negative, it sums to 1, and it has the input's length. -/
theorem softmax_spec (q : List ℝ) (h : q ≠ []) :
    softmax q = .ok (q.map (fun y => Real.exp y / (q.map Real.exp).sum)) ∧
    (∀ z ∈ q.map (fun y => Real.exp y / (q.map Real.exp).sum), 0 ≤ z) ∧
    (q.map (fun y => Real.exp y / (q.map Real.exp).sum)).sum = 1 ∧
    (q.map (fun y => Real.exp y / (q.map Real.exp).sum)).length = q.length := by
  have hS : 0 < (q.map Real.exp).sum := sum_map_exp_pos q h
  refine ⟨?_, ?_, ?_, by rw [List.length_map]⟩
  · match q with
    | x :: xs =>
      unfold softmax
      rw [Except.ok.injEq, List.map_map]
      have hfun : ((fun z => z / ((x :: xs).map (fun y => Real.exp (y - xs.foldl max x))).sum) ∘
            fun y => Real.exp (y - xs.foldl max x)) =
          fun y => Real.exp y / ((x :: xs).map Real.exp).sum :=
        funext fun y => exp_shift_div (x :: xs) (by simp) (xs.foldl max x) y
      rw [hfun]
  · intro z hz
    obtain ⟨y, -, rfl⟩ := List.mem_map.mp hz
    exact div_nonneg (Real.exp_pos y).le hS.le
  · have hdiv : (q.map (fun y => Real.exp y / (q.map Real.exp).sum)) =
        (q.map (fun y => Real.exp y * ((q.map Real.exp).sum)⁻¹)) := by
      simp only [div_eq_mul_inv]
    rw [hdiv, List.sum_map_mul_right, mul_inv_cancel₀ hS.ne']

/-- C8 witness: the softmax contract instantiated on the one-entry vector
`[0]`. -/
theorem softmax_spec_witness :
    softmax [(0 : ℝ)] = .ok ([(0 : ℝ)].map (fun y => Real.exp y / ([(0 : ℝ)].map Real.exp).sum)) ∧
    (∀ z ∈ [(0 : ℝ)].map (fun y => Real.exp y / ([(0 : ℝ)].map Real.exp).sum), 0 ≤ z) ∧
    ([(0 : ℝ)].map (fun y => Real.exp y / ([(0 : ℝ)].map Real.exp).sum)).sum = 1 ∧
    ([(0 : ℝ)].map (fun y => Real.exp y / ([(0 : ℝ)].map Real.exp).sum)).length =
      [(0 : ℝ)].length :=
  softmax_spec [(0 : ℝ)] (by simp)

/-- One step of the bias-corrected UDE statistics preserves non-negativity:
with `0 < bNot <= 1` and `tao, tdVar >= 0`, `i >= 1`, the updated `tao` is
non-negative and the updated variance
`((i-1)*tdVar + (d - avg)*(d - avg')) / i` is non-negative, because
`d - avg' = (1 - bNot/tao') * (d - avg)` and `bNot/tao' <= 1`. -/
theorem udeStep_nonneg (bNot tao tdVar avg d iq : ℚ)
    (hb0 : 0 < bNot) (hb1 : bNot ≤ 1) (ht : 0 ≤ tao) (hv : 0 ≤ tdVar) (hi : 1 ≤ iq) :
    0 ≤ (1 - bNot) * tao + bNot ∧
    0 ≤ ((iq - 1) * tdVar +
        (d - avg) *
          (d - ((1 - bNot / ((1 - bNot) * tao + bNot)) * avg +
            bNot / ((1 - bNot) * tao + bNot) * d))) / iq := by
  have htao : bNot ≤ (1 - bNot) * tao + bNot := by nlinarith
  have htao0 : 0 < (1 - bNot) * tao + bNot := lt_of_lt_of_le hb0 htao
  have hbeta : bNot / ((1 - bNot) * tao + bNot) ≤ 1 := (div_le_one htao0).mpr htao
  have key : (d - avg) *
        (d - ((1 - bNot / ((1 - bNot) * tao + bNot)) * avg +
          bNot / ((1 - bNot) * tao + bNot) * d)) =
      (1 - bNot / ((1 - bNot) * tao + bNot)) * (d - avg) ^ 2 := by ring
  have hprod : 0 ≤ (1 - bNot / ((1 - bNot) * tao + bNot)) * (d - avg) ^ 2 :=
    mul_nonneg (by linarith) (sq_nonneg _)
  refine ⟨by linarith, div_nonneg ?_ (by linarith)⟩
  rw [key] at *
  nlinarith

/-- The `_tdLearn` body preserves the UDE invariant. -/
theorem tdLearnCore_UDEInv (g : GVF) (ls ns : List ℚ)
    (hb0 : 0 < g.betaNotUDE) (hb1 : g.betaNotUDE ≤ 1) (h : UDEInv g) :
    UDEInv (g.tdLearnCore ls ns) := by
  obtain ⟨ht, hv, hi⟩ := h
  have hs := udeStep_nonneg g.betaNotUDE g.taoUDE g.tdVariance g.averageTD
    (g.cumulant ns + g.gamma ns * dot ns g.weights - dot ls g.weights) g.i hb0 hb1 ht hv hi
  exact ⟨hs.1, hs.2, by
    show (1 : ℚ) ≤ g.i + 1
    linarith⟩

/-- The `_gtdLearn` body preserves the UDE invariant. -/
theorem gtdLearnCore_UDEInv (g : GVF) (rho : ℚ) (ls ns : List ℚ)
    (hb0 : 0 < g.betaNotUDE) (hb1 : g.betaNotUDE ≤ 1) (h : UDEInv g) :
    UDEInv (g.gtdLearnCore rho ls ns) := by
  obtain ⟨ht, hv, hi⟩ := h
  have hs := udeStep_nonneg g.betaNotUDE g.taoUDE g.tdVariance g.averageTD
    (g.cumulant ns + g.gamma ns * dot ns g.weights - dot ls g.weights) g.i hb0 hb1 ht hv hi
  exact ⟨hs.1, hs.2, by
    show (1 : ℚ) ≤ g.i + 1
    linarith⟩

/-- C9: with `betaNotUDE` in `(0, 1]`, `tdVariance >= 0` is an invariant —
it holds at construction (where `tdVariance = 0` and `betaNotUDE` equals the
constructor's `alpha`), it is preserved by every successful `_tdLearn` and
`_gtdLearn` call (the updated average is a convex combination of the old
average and the TD error), and consequently the `ude()` denominator is
positive. -/
theorem tdVariance_invariant :
    (∀ (n : ℕ) (alphaArg : ℚ) (isOff : Bool) (nm : String),
      UDEInv (GVF.init n alphaArg isOff nm) ∧ (GVF.init n alphaArg isOff nm).tdVariance = 0 ∧
        (GVF.init n alphaArg isOff nm).betaNotUDE = alphaArg) ∧
    (∀ (g g' : GVF) (ls ns : List ℚ) (a : Twist),
      0 < g.betaNotUDE → g.betaNotUDE ≤ 1 → UDEInv g →
      g.tdLearn ls a ns = .ok g' → UDEInv g' ∧ 0 ≤ g'.tdVariance) ∧
    (∀ (g g' : GVF) (ls ns : List ℚ) (a : Twist),
      0 < g.betaNotUDE → g.betaNotUDE ≤ 1 → UDEInv g →
      g.gtdLearn ls a ns = .ok g' → UDEInv g' ∧ 0 ≤ g'.tdVariance) ∧
    (∀ g : GVF, 0 ≤ g.tdVariance → 0 < g.udeDenom) := by
  refine ⟨?_, ?_, ?_, ?_⟩
  · intro n alphaArg isOff nm
    refine ⟨⟨le_refl 0, le_refl 0, le_refl 1⟩, rfl, ?_⟩
    show ((1 - 9/10) * alphaArg) * 10 = alphaArg
    ring
  · intro g g' ls ns a hb0 hb1 hinv h
    unfold GVF.tdLearn at h
    split at h
    · injection h with h
      subst h
      have := tdLearnCore_UDEInv g ls ns hb0 hb1 hinv
      exact ⟨this, this.2.1⟩
    · exact Except.noConfusion h
  · intro g g' ls ns a hb0 hb1 hinv h
    unfold GVF.gtdLearn at h
    split at h
    · injection h with h
      subst h
      exact ⟨hinv, hinv.2.1⟩
    · split at h
      · exact Except.noConfusion h
      · split at h
        · rename_i rho heq hsz
          injection h with h
          subst h
          have hc := gtdLearnCore_UDEInv g rho ls ns hb0 hb1 hinv
          exact ⟨hc, hc.2.1⟩
        · exact Except.noConfusion h
  · intro g hv
    unfold GVF.udeDenom
    have h1 : 0 ≤ Real.sqrt (g.tdVariance : ℝ) := Real.sqrt_nonneg _
    have h2 : (0 : ℝ) < 1/1000000 := by norm_num
    linarith

/-- C9 witness: the invariant instantiated at construction with `alpha = 1/2`
and through one concrete `_tdLearn` and one concrete `_gtdLearn` step. -/
theorem tdVariance_invariant_witness :
    (UDEInv gvf9 ∧ gvf9.tdVariance = 0 ∧ gvf9.betaNotUDE = 1/2) ∧
    (UDEInv gvf9td ∧ 0 ≤ gvf9td.tdVariance) ∧
    (UDEInv gvf9gtd ∧ 0 ≤ gvf9gtd.tdVariance) ∧
    0 < gvf9.udeDenom :=
  ⟨tdVariance_invariant.1 1 (1/2) false "gvf9",
    tdVariance_invariant.2.1 gvf9 gvf9td [1] [1] twistA (by norm_num [gvf9, GVF.init])
      (by norm_num [gvf9, GVF.init])
      (by norm_num [UDEInv, gvf9, GVF.init]) rfl,
    tdVariance_invariant.2.2.1 gvf9 gvf9gtd [1] [1] twistA (by norm_num [gvf9, GVF.init])
      (by norm_num [gvf9, GVF.init])
      (by norm_num [UDEInv, gvf9, GVF.init]) rfl,
    tdVariance_invariant.2.2.2 gvf9 (by norm_num [gvf9, GVF.init])⟩

/-- The `>=`-replacement fold of `GreedyGQ.update` returns a candidate that
dominates the start value and every listed value; moreover either nothing in
the list reached the start value (and the start is returned), or the result
splits the list with everything after it strictly smaller — i.e. ties go to
the last maximizer in enumeration order. -/
theorem greedy_action_spec (v : Twist → ℚ) (as : List Twist) :
    ∀ c : Twist,
      v c ≤ v (greedy_action v c as) ∧
      (∀ a ∈ as, v a ≤ v (greedy_action v c as)) ∧
      ((greedy_action v c as = c ∧ ∀ a ∈ as, v a < v c) ∨
        ∃ pre post, as = pre ++ greedy_action v c as :: post ∧
          ∀ a ∈ post, v a < v (greedy_action v c as)) := by
  induction as with
  | nil =>
    intro c
    exact ⟨le_refl _, by simp, Or.inl ⟨rfl, by simp⟩⟩
  | cons a as ih =>
    intro c
    have hstep : greedy_action v c (a :: as) =
        greedy_action v (if v a ≥ v c then a else c) as := rfl
    by_cases hva : v a ≥ v c
    · obtain ⟨h1, h2, h3⟩ := ih a
      rw [hstep, if_pos hva]
      refine ⟨le_trans hva h1, ?_, ?_⟩
      · intro x hx
        rcases List.mem_cons.mp hx with rfl | hx
        · exact h1
        · exact h2 x hx
      · rcases h3 with ⟨hr, hlt⟩ | ⟨pre, post, heq, hlt⟩
        · refine Or.inr ⟨[], as, ?_, ?_⟩
          · rw [hr]
            rfl
          · rw [hr]
            exact hlt
        · refine Or.inr ⟨a :: pre, post, ?_, hlt⟩
          rw [List.cons_append]
          exact congrArg (List.cons a) heq
    · obtain ⟨h1, h2, h3⟩ := ih c
      rw [hstep, if_neg hva]
      push_neg at hva
      refine ⟨h1, ?_, ?_⟩
      · intro x hx
        rcases List.mem_cons.mp hx with rfl | hx
        · exact le_trans (le_of_lt hva) h1
        · exact h2 x hx
      · rcases h3 with ⟨hr, hlt⟩ | ⟨pre, post, heq, hlt⟩
        · refine Or.inl ⟨hr, ?_⟩
          intro x hx
          rcases List.mem_cons.mp hx with rfl | hx
          · exact hva
          · exact hlt x hx
        · refine Or.inr ⟨a :: pre, post, ?_, hlt⟩
          rw [List.cons_append]
          exact congrArg (List.cons a) heq

/-- C3 counterexample: with all state-action values tied (zero weights), the
bootstrap-target loop of `GreedyGQ.update` picks `twistB`, the LAST of the two
enumerated actions, not the first one. -/
theorem greedy_tie_counterexample :
    greedy_action (gq2.qval [1]) twistA gq2.action_space = twistB ∧
    gq2.qval [1] twistA = gq2.qval [1] twistB ∧
    gq2.action_space = [twistA, twistB] ∧
    twistB ≠ twistA :=
  ⟨by decide, by decide, rfl, by decide⟩

/-- C3 amended: provided the behavior action is in the action space, the
bootstrap target action of `GreedyGQ.update` maximizes
`theta . stateaction(phi_prime, a)` over the whole action space, and when
several actions tie for the maximum the last action in enumeration order is
chosen (everything after the returned occurrence is strictly smaller). -/
theorem update_greedy_is_last_argmax (g : GreedyGQ) (phi_prime : List ℚ) (last_action : Twist)
    (h : last_action ∈ g.action_space) :
    greedy_action (g.qval phi_prime) last_action g.action_space ∈ g.action_space ∧
    (∀ a ∈ g.action_space,
      g.qval phi_prime a ≤
        g.qval phi_prime (greedy_action (g.qval phi_prime) last_action g.action_space)) ∧
    ∃ pre post,
      g.action_space = pre ++ greedy_action (g.qval phi_prime) last_action g.action_space :: post ∧
        ∀ a ∈ post,
          g.qval phi_prime a <
            g.qval phi_prime (greedy_action (g.qval phi_prime) last_action g.action_space) := by
  obtain ⟨h1, h2, h3⟩ := greedy_action_spec (g.qval phi_prime) g.action_space last_action
  rcases h3 with ⟨hr, hlt⟩ | ⟨pre, post, heq, hlt⟩
  · exact absurd (hlt last_action h) (lt_irrefl _)
  · refine ⟨?_, h2, pre, post, heq, hlt⟩
    have hmem : greedy_action (g.qval phi_prime) last_action g.action_space ∈
        pre ++ greedy_action (g.qval phi_prime) last_action g.action_space :: post :=
      List.mem_append.mpr (Or.inr (List.mem_cons_self _ _))
    rwa [← heq] at hmem

/-- C3 amended witness: the last-argmax property instantiated on the concrete
two-action learner. -/
theorem update_greedy_is_last_argmax_witness :
    twistA ∈ gq2.action_space ∧
    (greedy_action (gq2.qval [1]) twistA gq2.action_space ∈ gq2.action_space ∧
      (∀ a ∈ gq2.action_space,
        gq2.qval [1] a ≤
          gq2.qval [1] (greedy_action (gq2.qval [1]) twistA gq2.action_space)) ∧
      ∃ pre post,
        gq2.action_space = pre ++ greedy_action (gq2.qval [1]) twistA gq2.action_space :: post ∧
          ∀ a ∈ post,
            gq2.qval [1] a <
              gq2.qval [1] (greedy_action (gq2.qval [1]) twistA gq2.action_space)) :=
  ⟨by decide, update_greedy_is_last_argmax gq2 [1] twistA (by decide)⟩

set_option maxRecDepth 10000 in
/-- C2 counterexample: starting from a fresh two-action learner, 101
non-replayed `update` calls leave 101 entries in `worst_experiences` — the
buffer is not capped at 100 by `update` itself. -/
theorem buffer_exceeds_cap_counterexample :
    (match gq2iter 101 with
      | .ok g => g.worst_experiences.length
      | .error _ => 0) = 101 ∧ (101 : ℕ) ≠ 100 := by
  constructor
  · decide
  · decide

/-- The skip branch of `GreedyGQ.update`: when the previous non-replayed call
ended an episode, the next non-replayed call only clears the flag and returns
the stored `action_phi`. -/
theorem update_skip (g : GreedyGQ) (phi : List ℚ) (la : Twist) (phi' : List ℚ) (c γ ρ : ℚ)
    (hflag : g.episode_finished_last_step = true) :
    g.update phi la phi' c γ ρ false =
      .ok ({ g with episode_finished_last_step := false }, g.action_phi) := by
  unfold GreedyGQ.update
  rw [if_pos ⟨rfl, hflag⟩]

/-- A replayed (`replaying_experience=True`) `update` never touches the
replay buffer. -/
theorem update_replaying_buffer (g : GreedyGQ) (phi : List ℚ) (la : Twist) (phi' : List ℚ)
    (c γ ρ : ℚ) (res : GreedyGQ × List ℚ)
    (h : g.update phi la phi' c γ ρ true = .ok res) :
    res.1.worst_experiences = g.worst_experiences := by
  unfold GreedyGQ.update at h
  rw [if_neg (by simp)] at h
  dsimp only at h
  split at h
  · rw [if_pos rfl] at h
    injection h with h
    subst h
    rfl
  · exact Except.noConfusion h

/-- One replay-loop iteration preserves the length of the replay buffer. -/
theorem replayStep_buffer_length (g : GreedyGQ) (idx : ℕ) (g' : GreedyGQ)
    (h : g.replayStep idx = .ok g') :
    g'.worst_experiences.length = g.worst_experiences.length := by
  unfold GreedyGQ.replayStep at h
  split at h
  · dsimp only at h
    split at h
    · exact Except.noConfusion h
    · rename_i hlt res heq
      injection h with h
      subst h
      have hb := update_replaying_buffer g _ _ _ _ _ _ res heq
      simp [List.length_set, hb]
  · exact Except.noConfusion h

/-- A whole replay loop preserves the length of the replay buffer. -/
theorem foldlM_replayStep_buffer_length :
    ∀ (l : List ℕ) (g g' : GreedyGQ),
      l.foldlM GreedyGQ.replayStep g = .ok g' →
      g'.worst_experiences.length = g.worst_experiences.length := by
  intro l
  induction l with
  | nil =>
    intro g g' h
    injection h with h
    subst h
    rfl
  | cons i l ih =>
    intro g g' h
    rw [List.foldlM_cons] at h
    cases hstep : g.replayStep i with
    | error e =>
      rw [hstep] at h
      exact Except.noConfusion h
    | ok g1 =>
      rw [hstep] at h
      have h' : l.foldlM GreedyGQ.replayStep g1 = .ok g' := h
      rw [ih g1 g' h', replayStep_buffer_length g i g1 hstep]

/-- C2 amended: `update` itself never truncates — each successful non-skipped
non-replayed call appends exactly one experience, so after `N` such calls with
no replay invocations the buffer holds `N` entries; the 100-entry cap is
enforced only on entry to the replay procedures, both of which leave the
buffer at no more than 100 entries. -/
theorem buffer_cap_amended :
    (∀ (g : GreedyGQ) (phi : List ℚ) (la : Twist) (phi' : List ℚ) (c γ ρ : ℚ)
        (res : GreedyGQ × List ℚ),
      g.episode_finished_last_step = false →
      g.update phi la phi' c γ ρ false = .ok res →
      res.1.worst_experiences.length = g.worst_experiences.length + 1) ∧
    (∀ (g : GreedyGQ) (oracle : List ℕ) (g' : GreedyGQ),
      1 ≤ g.num_experiences →
      g.uniform_experience_replay oracle = .ok g' →
      g'.worst_experiences.length ≤ 100) ∧
    (∀ (g g' : GreedyGQ),
      g.td_error_prioritized_experience_replay = .ok g' →
      g'.worst_experiences.length ≤ 100) := by
  refine ⟨?_, ?_, ?_⟩
  · intro g phi la phi' c γ ρ res hflag hok
    unfold GreedyGQ.update at hok
    rw [if_neg (by simp [hflag])] at hok
    dsimp only at hok
    split at hok
    · rw [if_neg (by simp)] at hok
      split at hok
      · injection hok with hok
        subst hok
        simp
      · injection hok with hok
        subst hok
        simp
    · exact Except.noConfusion hok
  · intro g oracle g' hn hok
    unfold GreedyGQ.uniform_experience_replay at hok
    rw [if_neg (by omega)] at hok
    dsimp only at hok
    have hlen := foldlM_replayStep_buffer_length _ _ _ hok
    rw [hlen]
    simp only [List.length_drop]
    omega
  · intro g g' hok
    unfold GreedyGQ.td_error_prioritized_experience_replay at hok
    dsimp only at hok
    split at hok
    · injection hok with hok
      subst hok
      simp only [List.length_take, List.length_mergeSort]
      omega
    · have hlen := foldlM_replayStep_buffer_length _ _ _ hok
      rw [hlen]
      simp only [List.length_take, List.length_mergeSort]
      omega

/-- With at least one recorded experience but a buffer of at most 10 entries,
`uniform_experience_replay` is exactly the identity: the truncation keeps the
whole buffer, `random.sample` fails (population `len - 1 < 10`), the failure
is swallowed, and no replay happens. -/
theorem uniform_small_buffer (g : GreedyGQ) (oracle : List ℕ)
    (hn : 1 ≤ g.num_experiences)
    (h1 : 1 ≤ g.worst_experiences.length) (h10 : g.worst_experiences.length ≤ 10) :
    g.uniform_experience_replay oracle = .ok g := by
  unfold GreedyGQ.uniform_experience_replay
  rw [if_neg (by omega)]
  have htr : g.worst_experiences.drop (g.worst_experiences.length - 100) =
      g.worst_experiences := by
    rw [Nat.sub_eq_zero_of_le (by omega), List.drop_zero]
  rw [htr]
  dsimp only
  unfold sampleRange
  rw [if_pos (by omega)]
  dsimp only
  rw [List.foldlM_nil]
  rfl

/-- C10: when the (post-truncation) buffer holds between 1 and 10
experiences, `uniform_experience_replay` performs no replay update and leaves
the learner completely unchanged, because sampling 10 indices from
`range(0, len - 1)` raises an exception that is silently swallowed; and any
successful sample from `range(0, m)` only yields indices `< m`, so with
`m = len - 1` the most recent experience is never eligible for uniform
replay. -/
theorem uniform_replay_small_buffer_noop :
    (∀ (g : GreedyGQ) (oracle : List ℕ),
      1 ≤ g.num_experiences → 1 ≤ g.worst_experiences.length →
      g.worst_experiences.length ≤ 10 →
      g.uniform_experience_replay oracle = .ok g) ∧
    (∀ (m k : ℕ) (oracle l : List ℕ), sampleRange m k oracle = .ok l →
      ∀ idx ∈ l, idx < m) := by
  constructor
  · exact uniform_small_buffer
  · intro m k oracle l h idx hidx
    unfold sampleRange at h
    split at h
    · exact Except.noConfusion h
    · injection h with h
      subst h
      have hm := List.mem_filter.mp (List.mem_of_mem_take hidx)
      simpa using hm.2

/-- C10 witness: the no-op on a concrete one-experience learner, and a
concrete successful sample staying inside its range. -/
theorem uniform_replay_small_buffer_noop_witness :
    gq10.uniform_experience_replay [0] = .ok gq10 ∧ (∀ idx ∈ [0], idx < 2) :=
  ⟨uniform_replay_small_buffer_noop.1 gq10 [0] (by decide) (by decide) (by decide),
    uniform_replay_small_buffer_noop.2 2 1 [0] [0] rfl⟩

/-- C2 amended witness: one concrete non-replayed update appends exactly one
experience, and both replay procedures leave concrete buffers at `<= 100`
entries. -/
theorem buffer_cap_amended_witness :
    gq2res.1.worst_experiences.length = gq2.worst_experiences.length + 1 ∧
    gq10.worst_experiences.length ≤ 100 ∧
    gqP.worst_experiences.length ≤ 100 :=
  ⟨buffer_cap_amended.1 gq2 [1] twistA [1] 0 0 1 gq2res rfl rfl,
    buffer_cap_amended.2.1 gq10 [0] gq10 (by decide)
      (uniform_small_buffer gq10 [0] (by decide) (by decide) (by decide)),
    buffer_cap_amended.2.2 gqP gqP (by
      unfold GreedyGQ.td_error_prioritized_experience_replay
      dsimp only
      rw [if_pos (by decide)]
      have hw : gqP.worst_experiences = [] := rfl
      rw [hw]
      simp only [List.mergeSort_nil, List.take_nil]
      rfl)⟩

/-- C5: a non-replayed update whose cumulant ends the episode resets the
eligibility trace to all zeros and arms the skip flag; the immediately
following non-replayed update returns `action_phi` without modifying `theta`,
`sec_weights`, or `e` — exactly one timestep is skipped. -/
theorem update_finished_episode_skip (g : GreedyGQ) (phi : List ℚ) (la : Twist)
    (phi' : List ℚ) (c γ ρ : ℚ) (res : GreedyGQ × List ℚ)
    (hflag : g.episode_finished_last_step = false)
    (hfin : g.finished_episode c = true)
    (hok : g.update phi la phi' c γ ρ false = .ok res) :
    res.1.e = zeros g.num_features ∧
    res.1.episode_finished_last_step = true ∧
    ∀ (phi2 : List ℚ) (la2 : Twist) (phi2' : List ℚ) (c2 γ2 ρ2 : ℚ),
      res.1.update phi2 la2 phi2' c2 γ2 ρ2 false =
        .ok ({ res.1 with episode_finished_last_step := false }, res.1.action_phi) := by
  unfold GreedyGQ.update at hok
  rw [if_neg (by simp [hflag])] at hok
  dsimp only at hok
  split at hok
  · rw [if_neg (by simp)] at hok
    injection hok with hok
    subst hok
    exact ⟨rfl, rfl, fun phi2 la2 phi2' c2 γ2 ρ2 => update_skip _ _ _ _ _ _ _ rfl⟩
  · exact Except.noConfusion hok

/-- C5 witness: the skip behaviour on a concrete two-action learner fed the
episode-ending cumulant 1. -/
theorem update_finished_episode_skip_witness :
    gq5res.1.e = zeros gq5.num_features ∧
    gq5res.1.episode_finished_last_step = true ∧
    ∀ (phi2 : List ℚ) (la2 : Twist) (phi2' : List ℚ) (c2 γ2 ρ2 : ℚ),
      gq5res.1.update phi2 la2 phi2' c2 γ2 ρ2 false =
        .ok ({ gq5res.1 with episode_finished_last_step := false }, gq5res.1.action_phi) :=
  update_finished_episode_skip gq5 [1] twistA [1] 1 0 1 gq5res rfl (by decide) rfl
